import Mathlib

/-!
Shallow embedding of the task-manager frontend reconciliation engine
(`src/frontend/src/lib.rs`, `Model::update` and the fetch helpers) and the
backend CRUD handlers (`src/backend/src/main.rs`), together with theorems
settling the specification claims.

Modelling conventions:
* `Uuid` is modelled as `Nat` (only equality of identifiers is ever used).
* The `task_loading_states : HashMap<Uuid, bool>` is only ever used through
  `insert(id, true)`, `remove(&id)` and `contains_key(&id)`, so it is
  modelled as a duplicate-free `List Nat` of identifiers.
* `Cmd<Msg>` values are modelled as the list of remote calls they would
  spawn (`Pending`); `Cmd::none()` is `[]` and `Cmd::batch` concatenates.
  The routing of each call's asynchronous outcome back into a `Msg`
  (the `match ... { Ok(..) => ..., Err(e) => ... }` bodies of the spawned
  futures) is the function `resolve`.
* The user-confirmation dialog (`window().confirm_with_message`) is an
  external input, passed to `Model.update` as the `confirm : Bool` argument.
* The Redis store of the backend is modelled as an association list
  `List (Nat × Task)` keyed by task identifier.
-/

namespace FB

/-- `shared::Task` (src/shared/src/lib.rs). `Uuid` modelled as `Nat`. -/
structure Task where
  id : Nat
  title : String
  description : String
  completed : Bool
deriving DecidableEq, Repr

/-- `shared::CreateTaskRequest`. -/
structure CreateTaskRequest where
  title : String
  description : String
deriving DecidableEq, Repr

/-- `shared::UpdateTaskRequest`: partial update, absent fields are `none`. -/
structure UpdateTaskRequest where
  title : Option String
  description : Option String
  completed : Option Bool
deriving DecidableEq, Repr

/-- `Task::new` (src/shared/src/lib.rs); `Uuid::new_v4()` is modelled as an
externally supplied fresh identifier. -/
def Task.new (freshId : Nat) (title description : String) : Task :=
  { id := freshId, title := title, description := description, completed := false }

/-- `Page` (src/frontend/src/lib.rs). -/
inductive Page where
  | Dashboard
  | Tasks
  | Analytics
  | Settings
deriving DecidableEq, Repr

/-- `Page::to_path`. -/
def Page.to_path : Page → String
  | .Dashboard => "/"
  | .Tasks => "/tasks"
  | .Analytics => "/analytics"
  | .Settings => "/settings"

/-- `Page::from_path` (unknown paths fall back to `Dashboard`). -/
def Page.from_path (path : String) : Page :=
  if path = "/" then .Dashboard
  else if path = "/tasks" then .Tasks
  else if path = "/analytics" then .Analytics
  else if path = "/settings" then .Settings
  else .Dashboard

/-- `Msg` (src/frontend/src/lib.rs). -/
inductive Msg where
  | NavigateTo (page : Page)
  | RouteChanged (path : String)
  | LoadTasks
  | TasksLoaded (tasks : List Task)
  | SetNewTaskTitle (title : String)
  | SetNewTaskDescription (description : String)
  | CreateTask
  | TaskCreated (task : Task)
  | ToggleTask (id : Nat)
  | TaskUpdated (task : Task)
  | RevertTaskToggle (id : Nat) (originalCompleted : Bool)
  | DeleteTask (id : Nat)
  | TaskDeleted (id : Nat)
  | EditTask (id : Nat)
  | SetEditTitle (title : String)
  | SetEditDescription (description : String)
  | SaveEdit (id : Nat)
  | TaskSaved (task : Task)
  | CancelEdit
  | ClearCompleted
  | ToggleCompletedSection
  | SetTaskLoading (id : Nat) (loading : Bool)
  | Error (err : String)
deriving DecidableEq, Repr

/-- A remote call spawned by `Model::update` inside a `Cmd::new(async ...)`.
Each constructor records the data captured by the corresponding closure in
the Rust source (for the toggle, the captured `new_completed` and
`old_completed`; for the save, the captured draft title/description). -/
inductive Pending where
  | loadTasks
  | createT (title description : String)
  | toggleSync (id : Nat) (newCompleted : Bool) (oldCompleted : Bool)
  | saveEditCall (id : Nat) (title description : String)
  | deleteCall (id : Nat)
deriving DecidableEq, Repr

/-- The wire-level request a `Pending` issues, matching the call sites
`create_task(title, description)`, `update_task(id, None, None,
Some(new_completed))`, `update_task(id, Some(title), Some(description),
None)` and `delete_task(id)`. -/
inductive RemoteCall where
  | list
  | create (title description : String)
  | update (id : Nat) (title description : Option String) (completed : Option Bool)
  | delete (id : Nat)
deriving DecidableEq, Repr

def remoteCallOf : Pending → RemoteCall
  | .loadTasks => .list
  | .createT t d => .create t d
  | .toggleSync id nw _ => .update id none none (some nw)
  | .saveEditCall id t d => .update id (some t) (some d) none
  | .deleteCall id => .delete id

/-- Successful payload of a remote call (list of tasks, a single task, or
the body-ignored payload of a delete). -/
inductive OkData where
  | tasks (ts : List Task)
  | task (t : Task)
  | deleted
deriving DecidableEq, Repr

/-- Outcome of a remote call as seen by the spawned future. -/
inductive Outcome where
  | ok (d : OkData)
  | err (e : String)
deriving DecidableEq, Repr

/-- The `match ... { Ok(..) => ..., Err(e) => ... }` bodies of the futures
spawned in `Model::update`, routing each call's outcome to a `Msg`.
The final catch-all covers response shapes the Rust types rule out. -/
def resolve : Pending → Outcome → Msg
  | .loadTasks, .ok (.tasks ts) => .TasksLoaded ts
  | .createT _ _, .ok (.task t) => .TaskCreated t
  | .toggleSync _ _ _, .ok (.task t) => .TaskUpdated t
  | .saveEditCall _ _ _, .ok (.task t) => .TaskSaved t
  | .deleteCall id, .ok _ => .TaskDeleted id
  | .toggleSync id _ old, .err _ => .RevertTaskToggle id old
  | _, .err e => .Error e
  | _, .ok _ => .Error "response shape mismatch"

/-- Set-style insert for the loading-state map (`HashMap::insert(id, true)`
where the value is always `true`). -/
def lsInsert (id : Nat) (l : List Nat) : List Nat :=
  if id ∈ l then l else id :: l

/-- `HashMap::remove(&id)` on the loading-state map. -/
def lsRemove (id : Nat) (l : List Nat) : List Nat :=
  l.filter (fun x => x ≠ id)

/-- Characters removed by Rust's `str::trim` and considered blank by
`str::is_empty` after trimming. -/
def trimChars (l : List Char) : List Char :=
  ((l.dropWhile Char.isWhitespace).reverse.dropWhile Char.isWhitespace).reverse

/-- `str::trim`: strip leading and trailing whitespace (kernel-executable
model of the library function). -/
def strTrim (s : String) : String := ⟨trimChars s.data⟩

/-- Replace the first element satisfying `p` by its image under `f`
(the effect of mutating through `iter_mut().find(p)` in Rust). -/
def updateFirst {α : Type} (p : α → Bool) (f : α → α) : List α → List α
  | [] => []
  | a :: l => if p a then f a :: l else a :: updateFirst p f l

/-- `Model` (src/frontend/src/lib.rs). -/
structure Model where
  current_page : Page
  tasks : List Task
  new_task_title : String
  new_task_description : String
  editing_task : Option Nat
  edit_title : String
  edit_description : String
  loading : Bool
  show_completed : Bool
  task_loading_states : List Nat
deriving DecidableEq, Repr

/-- `Model::default`. -/
def Model.default : Model :=
  { current_page := .Dashboard
    tasks := []
    new_task_title := ""
    new_task_description := ""
    editing_task := none
    edit_title := ""
    edit_description := ""
    loading := false
    show_completed := true
    task_loading_states := [] }

/-- `task_loading_states.contains_key(&id)`. -/
def Model.is_in_flight (m : Model) (id : Nat) : Bool :=
  m.task_loading_states.contains id

/-- `Model::update` (src/frontend/src/lib.rs). `confirm` is the answer of
the `window().confirm_with_message` dialog consulted by `DeleteTask` and
`ClearCompleted`; browser-history and console side effects are not state. -/
def Model.update (m : Model) (confirm : Bool) (msg : Msg) : Model × List Pending :=
  match msg with
  | .NavigateTo page =>
      let m2 := { m with current_page := page }
      if m2.current_page = Page.Tasks ∧ m2.tasks = [] then (m2, [.loadTasks])
      else (m2, [])
  | .RouteChanged path =>
      let new_page := Page.from_path path
      if new_page ≠ m.current_page then
        let m2 := { m with current_page := new_page }
        if m2.current_page = Page.Tasks ∧ m2.tasks = [] then (m2, [.loadTasks])
        else (m2, [])
      else (m, [])
  | .LoadTasks => ({ m with loading := true }, [.loadTasks])
  | .TasksLoaded ts => ({ m with tasks := ts, loading := false }, [])
  | .SetNewTaskTitle t => ({ m with new_task_title := t }, [])
  | .SetNewTaskDescription d => ({ m with new_task_description := d }, [])
  | .CreateTask =>
      let task_title := m.new_task_title
      let description := m.new_task_description
      if strTrim task_title = "" then (m, [])
      else
        ({ m with new_task_title := "", new_task_description := "" },
         [.createT task_title description])
  | .TaskCreated t => ({ m with tasks := m.tasks ++ [t] }, [])
  | .ToggleTask id =>
      match m.tasks.find? (fun t => t.id == id) with
      | some task =>
          let old_completed := task.completed
          let new_completed := !task.completed
          ({ m with
              task_loading_states := lsInsert id m.task_loading_states
              tasks := updateFirst (fun t => t.id == id)
                (fun t => { t with completed := new_completed }) m.tasks },
           [.toggleSync id new_completed old_completed])
      | none => (m, [])
  | .TaskUpdated u =>
      let ls := lsRemove u.id m.task_loading_states
      match m.tasks.find? (fun t => t.id == u.id) with
      | some task =>
          if task.completed != u.completed then
            ({ m with
                task_loading_states := ls
                tasks := updateFirst (fun t => t.id == u.id) (fun _ => u) m.tasks }, [])
          else ({ m with task_loading_states := ls }, [])
      | none => ({ m with task_loading_states := ls }, [])
  | .RevertTaskToggle id original_completed =>
      ({ m with
          task_loading_states := lsRemove id m.task_loading_states
          tasks := updateFirst (fun t => t.id == id)
            (fun t => { t with completed := original_completed }) m.tasks }, [])
  | .DeleteTask id =>
      if confirm then
        ({ m with task_loading_states := lsInsert id m.task_loading_states },
         [.deleteCall id])
      else (m, [])
  | .TaskDeleted id =>
      ({ m with
          tasks := m.tasks.filter (fun t => t.id != id)
          task_loading_states := lsRemove id m.task_loading_states }, [])
  | .EditTask id =>
      match m.tasks.find? (fun t => t.id == id) with
      | some task =>
          ({ m with
              editing_task := some id
              edit_title := task.title
              edit_description := task.description }, [])
      | none => (m, [])
  | .SetEditTitle t => ({ m with edit_title := t }, [])
  | .SetEditDescription d => ({ m with edit_description := d }, [])
  | .SaveEdit id =>
      if m.editing_task ≠ some id then (m, [])
      else
        ({ m with
            task_loading_states := lsInsert id m.task_loading_states
            editing_task := none },
         [.saveEditCall id m.edit_title m.edit_description])
  | .TaskSaved st =>
      ({ m with
          task_loading_states := lsRemove st.id m.task_loading_states
          tasks := updateFirst (fun t => t.id == st.id) (fun _ => st) m.tasks
          edit_title := ""
          edit_description := "" }, [])
  | .CancelEdit => ({ m with editing_task := none }, [])
  | .ClearCompleted =>
      if confirm then
        let completed_ids := (m.tasks.filter (fun t => t.completed)).map (fun t => t.id)
        ({ m with
            task_loading_states :=
              completed_ids.foldl (fun acc id => lsInsert id acc) m.task_loading_states
            tasks := m.tasks.filter (fun t => !t.completed) },
         completed_ids.map (fun id => Pending.deleteCall id))
      else (m, [])
  | .ToggleCompletedSection => ({ m with show_completed := !m.show_completed }, [])
  | .SetTaskLoading id l =>
      if l then ({ m with task_loading_states := lsInsert id m.task_loading_states }, [])
      else ({ m with task_loading_states := lsRemove id m.task_loading_states }, [])
  | .Error _ => (m, [])

/-! ### Backend (src/backend/src/main.rs)

The Redis store is an association list keyed by task identifier
(the Redis key `task:{id}`). `conn.set` overwrites the entry for a key. -/

/-- Backend store lookup (`conn.get` of key `task:{id}` plus JSON decode). -/
def lookupTask (s : List (Nat × Task)) (id : Nat) : Option Task :=
  (s.find? (fun e => e.1 == id)).map (fun e => e.2)

/-- Backend store write (`conn.set` of key `task:{id}`): replaces the entry
for the key when present, otherwise adds it. -/
def bsSet : List (Nat × Task) → Nat → Task → List (Nat × Task)
  | [], id, t => [(id, t)]
  | (k, v) :: rest, id, t =>
      if k == id then (id, t) :: rest else (k, v) :: bsSet rest id t

/-- `create_task` handler: builds `Task::new(payload.title,
payload.description)` (fresh identifier supplied externally), stores it and
returns it. -/
def create_task_handler (s : List (Nat × Task)) (freshId : Nat)
    (payload : CreateTaskRequest) : List (Nat × Task) × Task :=
  let task := Task.new freshId payload.title payload.description
  (bsSet s task.id task, task)

/-- `update_task` handler: 404 when the key is absent; otherwise applies
exactly the `Some` fields of the payload, stores and returns the result. -/
def update_task_handler (s : List (Nat × Task)) (id : Nat)
    (payload : UpdateTaskRequest) : Except Nat (List (Nat × Task) × Task) :=
  match s.find? (fun e => e.1 == id) with
  | none => .error 404
  | some e =>
      let task0 := e.2
      let task1 := match payload.title with
        | some t => { task0 with title := t }
        | none => task0
      let task2 := match payload.description with
        | some d => { task1 with description := d }
        | none => task1
      let task3 := match payload.completed with
        | some c => { task2 with completed := c }
        | none => task2
      .ok (bsSet s id task3, task3)

/-- Backend `delete_task` handler: `DEL` returns the number of removed
keys; a positive count yields a success body, zero yields 404. -/
def delete_task_handler (s : List (Nat × Task)) (id : Nat) :
    Except Nat (List (Nat × Task) × String) :=
  if (s.find? (fun e => e.1 == id)).isSome then
    .ok (s.filter (fun e => e.1 != id), "Task deleted successfully")
  else .error 404

/-- An HTTP response as observed by the frontend once the fetch promise
has resolved: any status code counts as a resolved response. -/
structure HttpResponse where
  status : Nat
  body : String
deriving DecidableEq, Repr

/-- The HTTP response produced by the backend delete handler (Axum turns
`Err(StatusCode)` into a response bearing that status; the fetch promise
still resolves on such a response). -/
def backendDeleteResponse (s : List (Nat × Task)) (id : Nat) : HttpResponse :=
  match delete_task_handler s id with
  | .ok (_, msg) => { status := 200, body := msg }
  | .error code => { status := code, body := "" }

/-- Frontend `delete_task` (src/frontend/src/lib.rs lines 1066-1083): the
argument is the settled fetch promise — `Except.error` is a rejected
promise (network failure), `Except.ok` a resolved response. The function
discards the response entirely and returns `Ok(())`. -/
def delete_task (fetchResult : Except String HttpResponse) : Except String Unit :=
  match fetchResult with
  | .error _ => .error "Failed to send request"
  | .ok _ => .ok ()

/-- Adaptor from the frontend `delete_task` result to the outcome shape
consumed by `resolve` for a `deleteCall`. -/
def deleteOutcome : Except String Unit → Outcome
  | .ok _ => .ok .deleted
  | .error e => .err e

/-! ### Helper lemmas -/

theorem mem_lsInsert {a x : Nat} {l : List Nat} :
    a ∈ lsInsert x l ↔ a = x ∨ a ∈ l := by
  unfold lsInsert
  by_cases hx : x ∈ l
  · simp only [if_pos hx]
    constructor
    · exact fun h => Or.inr h
    · rintro (rfl | h)
      · exact hx
      · exact h
  · simp [if_neg hx]

theorem mem_lsRemove {a x : Nat} {l : List Nat} :
    a ∈ lsRemove x l ↔ a ∈ l ∧ a ≠ x := by
  simp [lsRemove]

theorem mem_foldl_lsInsert (l : List Nat) :
    ∀ (init : List Nat) (a : Nat),
      a ∈ l.foldl (fun acc id => lsInsert id acc) init ↔ a ∈ init ∨ a ∈ l := by
  induction l with
  | nil => intro init a; simp
  | cons x l ih =>
      intro init a
      simp only [List.foldl_cons, List.mem_cons]
      rw [ih, mem_lsInsert]
      tauto

theorem contains_iff_mem {l : List Nat} {a : Nat} :
    l.contains a = true ↔ a ∈ l := by
  simp [List.contains]

theorem updateFirst_length {α : Type} (p : α → Bool) (f : α → α) :
    ∀ l : List α, (updateFirst p f l).length = l.length := by
  intro l
  induction l with
  | nil => rfl
  | cons a l ih =>
      by_cases hp : p a = true
      · simp [updateFirst, hp]
      · simp [updateFirst, hp, ih]

theorem updateFirst_get? {α : Type} (p : α → Bool) (f : α → α) :
    ∀ (l : List α) (i : Nat),
      (updateFirst p f l).get? i = l.get? i ∨
      ∃ t, l.get? i = some t ∧ p t = true ∧
        (updateFirst p f l).get? i = some (f t) := by
  intro l
  induction l with
  | nil => intro i; left; rfl
  | cons a l ih =>
      intro i
      by_cases hp : p a = true
      · cases i with
        | zero => right; exact ⟨a, rfl, hp, by simp [updateFirst, hp]⟩
        | succ j => left; simp [updateFirst, hp]
      · cases i with
        | zero => left; simp [updateFirst, hp]
        | succ j =>
            have h := ih j
            simpa [updateFirst, hp] using h

theorem find?_updateFirst {α : Type} (p : α → Bool) (f : α → α)
    (hf : ∀ a, p a = true → p (f a) = true) :
    ∀ (l : List α) (t : α), l.find? p = some t →
      (updateFirst p f l).find? p = some (f t) := by
  intro l
  induction l with
  | nil => intro t h; cases h
  | cons a l ih =>
      intro t h
      by_cases hpa : p a = true
      · rw [List.find?_cons_of_pos _ hpa] at h
        injection h with h
        subst h
        simp [updateFirst, hpa, List.find?_cons_of_pos _ (hf a hpa)]
      · have hpa2 : ¬ p a := by simpa using hpa
        rw [List.find?_cons_of_neg _ hpa2] at h
        have : updateFirst p f (a :: l) = a :: updateFirst p f l := by
          simp [updateFirst, hpa]
        rw [this, List.find?_cons_of_neg _ hpa2]
        exact ih t h

theorem updateFirst_of_find?_none {α : Type} (p : α → Bool) (f : α → α) :
    ∀ l : List α, l.find? p = none → updateFirst p f l = l := by
  intro l
  induction l with
  | nil => intro _; rfl
  | cons a l ih =>
      intro h
      rw [List.find?_eq_none] at h
      have hpa : ¬ p a = true := h a (by simp)
      have hrest : l.find? p = none := by
        rw [List.find?_eq_none]
        intro x hx
        exact h x (by simp [hx])
      simp [updateFirst, hpa, ih hrest]

/-! ### Concrete fixtures used by counterexamples and witnesses -/

def tC1 : Task := { id := 1, title := "a", description := "d", completed := false }

/-- A server response for task 1 whose title differs from the stored one
but whose completion flag matches. -/
def uC1 : Task := { id := 1, title := "b", description := "d", completed := false }

def mC1 : Model := { Model.default with tasks := [tC1] }

def tC3 : Task := { id := 1, title := "a", description := "b", completed := false }

def mC3 : Model :=
  { Model.default with
      tasks := [tC3], editing_task := some 1, edit_title := "a2", edit_description := "b2" }

def tC4 : Task := { id := 2, title := "t", description := "d", completed := false }

def mC4 : Model := { Model.default with tasks := [tC4] }

def tW2 : Task := { id := 5, title := "t", description := "d", completed := true }

/-- A server response for task 5 whose completion flag differs from the
stored one. -/
def uW1 : Task := { id := 5, title := "t", description := "d", completed := false }

def mW2 : Model := { Model.default with tasks := [tW2] }

def tW9 : Task := { id := 3, title := "t", description := "d", completed := true }

def mW9 : Model := { Model.default with tasks := [tW9], task_loading_states := [3, 9] }

def mW7 : Model := { Model.default with new_task_title := "Buy milk", new_task_description := "" }

def mW8 : Model :=
  { Model.default with
      tasks := [tC4], editing_task := some 2, edit_title := "nt", edit_description := "nd" }

theorem lookupTask_bsSet_self (id : Nat) (t : Task) :
    ∀ s : List (Nat × Task), lookupTask (bsSet s id t) id = some t := by
  intro s
  induction s with
  | nil => simp [bsSet, lookupTask]
  | cons e rest ih =>
      obtain ⟨k, v⟩ := e
      by_cases hk : k = id
      · subst hk
        simp [bsSet, lookupTask]
      · have hk2 : (k == id) = false := by simpa using hk
        simp only [bsSet, hk2, Bool.false_eq_true, if_false]
        simpa [lookupTask, List.find?, hk2] using ih

/-! ### Claim theorems -/

/-- Claim C10: the frontend `delete_task` returns `Ok(())` for every
resolved HTTP response, regardless of status (including the 404 the
backend delete handler produces for an absent task), so the dispatcher
always reconciles a resolved delete as `Msg::TaskDeleted`. -/
theorem C10_delete_resolves_ok (resp : HttpResponse) (id : Nat)
    (s : List (Nat × Task)) :
    delete_task (.ok resp) = .ok () ∧
    resolve (.deleteCall id) (deleteOutcome (delete_task (.ok resp))) =
      .TaskDeleted id ∧
    (backendDeleteResponse [] id).status = 404 ∧
    delete_task (.ok (backendDeleteResponse s id)) = .ok () :=
  ⟨rfl, rfl, rfl, rfl⟩

/-- Claim C3 (code bug): after a `SaveEdit` whose remote update fails, the
failure is routed to `Msg::Error`, which leaves `task_loading_states`
untouched — the in-flight indicator for the task is never cleared,
contradicting the claimed invariant. -/
theorem C3_inflight_not_cleared :
    (mC3.update true (.SaveEdit 1)).2 = [.saveEditCall 1 "a2" "b2"] ∧
    (mC3.update true (.SaveEdit 1)).1.is_in_flight 1 = true ∧
    resolve (.saveEditCall 1 "a2" "b2") (.err "network error") =
      .Error "network error" ∧
    ((mC3.update true (.SaveEdit 1)).1.update true
        (.Error "network error")).1.is_in_flight 1 = true :=
  ⟨rfl, rfl, rfl, rfl⟩

/-- Claim C4 counterexample: confirming `DeleteTask` does NOT remove the
task from the Store — the entry is still present after the dispatch (the
removal only happens later, in `TaskDeleted`). -/
theorem C4_counterexample :
    (mC4.update true (.DeleteTask 2)).1.tasks = [tC4] ∧
    (mC4.update true (.DeleteTask 2)).2 = [.deleteCall 2] ∧
    (mC4.update true (.DeleteTask 2)).1.is_in_flight 2 = true :=
  ⟨rfl, rfl, rfl⟩

/-- Claim C1 counterexample: a successful toggle-update response whose
mutable fields differ from the stored entry (title `"b"` vs `"a"`) but
whose `completed` flag matches is NOT merged: the Store keeps the old
entry instead of being replaced by the returned task. -/
theorem C1_counterexample :
    uC1.title ≠ tC1.title ∧
    (mC1.update true (.TaskUpdated uC1)).1.tasks = [tC1] ∧
    tC1 ≠ uC1 :=
  ⟨by decide, rfl, by decide⟩

/-- Claim C2: rollback fidelity for toggle. Dispatching `ToggleTask id`
for a present task issues exactly one remote update whose captured
rollback value is the pre-toggle `completed`; the failure route produces
`RevertTaskToggle id old`, and reconciling it restores `completed` to its
value immediately before the toggle. -/
theorem C2_toggle_rollback (c c2 : Bool) (m : Model) (id : Nat) (t : Task)
    (e : String) (hfind : m.tasks.find? (fun x => x.id == id) = some t) :
    (m.update c (.ToggleTask id)).2 = [.toggleSync id (!t.completed) t.completed] ∧
    resolve (.toggleSync id (!t.completed) t.completed) (.err e) =
      .RevertTaskToggle id t.completed ∧
    ∃ t2,
      (((m.update c (.ToggleTask id)).1.update c2
          (.RevertTaskToggle id t.completed)).1.tasks.find? (fun x => x.id == id))
        = some t2 ∧ t2.completed = t.completed := by
  have h1 : (m.update c (.ToggleTask id)).1.tasks =
      updateFirst (fun x => x.id == id)
        (fun x => { x with completed := !t.completed }) m.tasks := by
    simp [Model.update, hfind]
  have h2 : (m.update c (.ToggleTask id)).1.tasks.find? (fun x => x.id == id) =
      some { t with completed := !t.completed } := by
    rw [h1]
    exact find?_updateFirst (fun x => x.id == id)
      (fun x => { x with completed := !t.completed }) (fun a ha => ha) m.tasks t hfind
  refine ⟨by simp [Model.update, hfind], rfl, ?_⟩
  have h3 : ((m.update c (.ToggleTask id)).1.update c2
      (.RevertTaskToggle id t.completed)).1.tasks =
      updateFirst (fun x => x.id == id)
        (fun x => { x with completed := t.completed })
        (m.update c (.ToggleTask id)).1.tasks := by
    simp [Model.update]
  refine ⟨{ { t with completed := !t.completed } with completed := t.completed },
    ?_, rfl⟩
  rw [h3]
  exact find?_updateFirst (fun x => x.id == id)
    (fun x : Task => { x with completed := t.completed }) (fun a ha => ha) _ _ h2

/-- Claim C2 witness at a concrete model: a completed task toggled and
rolled back keeps `completed = true`. -/
theorem C2_toggle_rollback_witness :
    (mW2.update true (.ToggleTask 5)).2 = [.toggleSync 5 false true] ∧
    resolve (.toggleSync 5 false true) (.err "boom") = .RevertTaskToggle 5 true ∧
    ∃ t2,
      (((mW2.update true (.ToggleTask 5)).1.update true
          (.RevertTaskToggle 5 true)).1.tasks.find? (fun x => x.id == 5))
        = some t2 ∧ t2.completed = true :=
  C2_toggle_rollback true true mW2 5 tW2 "boom" rfl

/-- Claim C4 (amended): confirming `DeleteTask id` marks `id` in-flight
and issues exactly one remote delete while leaving the Store untouched;
the Store entry is removed only by the success reconciliation
`TaskDeleted`, which also clears the in-flight flag. -/
theorem C4_delete_not_optimistic (m : Model) (id : Nat) :
    (m.update true (.DeleteTask id)).1.tasks = m.tasks ∧
    (m.update true (.DeleteTask id)).1.is_in_flight id = true ∧
    (m.update true (.DeleteTask id)).2 = [.deleteCall id] ∧
    ((m.update true (.DeleteTask id)).1.update true (.TaskDeleted id)).1.tasks =
      m.tasks.filter (fun t => t.id != id) ∧
    ((m.update true (.DeleteTask id)).1.update true
        (.TaskDeleted id)).1.is_in_flight id = false := by
  refine ⟨rfl, ?_, rfl, rfl, ?_⟩
  · rw [Model.is_in_flight, contains_iff_mem]
    show id ∈ lsInsert id m.task_loading_states
    rw [mem_lsInsert]
    exact Or.inl rfl
  · have : ¬ (id ∈ lsRemove id (lsInsert id m.task_loading_states)) := by
      rw [mem_lsRemove]
      rintro ⟨-, h⟩
      exact h rfl
    simp only [Model.update, Model.is_in_flight]
    rw [← Bool.not_eq_true, contains_iff_mem]
    exact this

/-- Claim C5: confirming `ClearCompleted` immediately removes exactly the
completed tasks from the Store (leaving every non-completed task in
place, in order), issues one remote delete per removed task, and the
in-flight set afterwards holds an identifier iff it was already in-flight
or belongs to a removed task. -/
theorem C5_clear_completed (m : Model) :
    (m.update true .ClearCompleted).1.tasks = m.tasks.filter (fun t => !t.completed) ∧
    (m.update true .ClearCompleted).2 =
      ((m.tasks.filter (fun t => t.completed)).map (fun t => t.id)).map
        (fun id => Pending.deleteCall id) ∧
    (∀ id, (m.update true .ClearCompleted).1.is_in_flight id = true ↔
      (m.is_in_flight id = true ∨
       id ∈ (m.tasks.filter (fun t => t.completed)).map (fun t => t.id))) := by
  refine ⟨rfl, rfl, ?_⟩
  intro id
  simp only [Model.update, Model.is_in_flight]
  rw [contains_iff_mem, contains_iff_mem]
  exact mem_foldl_lsInsert _ _ _

/-- Claim C8: the save-edit guard. If the Edit Buffer is not open for
exactly `A`, `SaveEdit A` is a complete no-op (identical model, no remote
call); if it is, the buffer is closed, `A` is marked in-flight before the
call resolves, the Store is untouched, and exactly one remote update with
the draft fields is issued. -/
theorem C8_edit_guard (c : Bool) (m : Model) (A : Nat) :
    (m.editing_task ≠ some A → m.update c (.SaveEdit A) = (m, [])) ∧
    (m.editing_task = some A →
      (m.update c (.SaveEdit A)).1.editing_task = none ∧
      (m.update c (.SaveEdit A)).1.tasks = m.tasks ∧
      (m.update c (.SaveEdit A)).1.is_in_flight A = true ∧
      (m.update c (.SaveEdit A)).2 =
        [.saveEditCall A m.edit_title m.edit_description]) := by
  constructor
  · intro h
    simp [Model.update, h]
  · intro h
    refine ⟨by simp [Model.update, h], by simp [Model.update, h], ?_,
      by simp [Model.update, h]⟩
    simp only [Model.update, h, ne_eq, not_true_eq_false, if_neg, Model.is_in_flight]
    rw [contains_iff_mem]
    simp [mem_lsInsert]

/-- Claim C8 witness: with the Edit Buffer open for task 2, `SaveEdit 4`
is a no-op, while `SaveEdit 2` closes the buffer, marks 2 in-flight and
issues the draft update. -/
theorem C8_edit_guard_witness :
    (mW8.update true (.SaveEdit 4) = (mW8, [])) ∧
    ((mW8.update true (.SaveEdit 2)).1.editing_task = none ∧
     (mW8.update true (.SaveEdit 2)).1.tasks = mW8.tasks ∧
     (mW8.update true (.SaveEdit 2)).1.is_in_flight 2 = true ∧
     (mW8.update true (.SaveEdit 2)).2 = [.saveEditCall 2 "nt" "nd"]) :=
  ⟨(C8_edit_guard true mW8 4).1 (by decide),
   (C8_edit_guard true mW8 2).2 rfl⟩

/-- Claim C1 (amended): for a successful toggle-update response
(`TaskUpdated`) the Reconciler compares only the `completed` field — it
replaces the Store entry with the returned task exactly when the returned
`completed` differs from the current one, and leaves the task list
entirely unchanged otherwise (even when title or description differ);
when the identifier is unknown the list is unchanged. For a successful
save response (`TaskSaved`) it replaces the entry unconditionally. -/
theorem C1_stale_suppression (c : Bool) (m : Model) (u st : Task) :
    (∀ t, m.tasks.find? (fun x => x.id == u.id) = some t →
      (t.completed ≠ u.completed →
        (m.update c (.TaskUpdated u)).1.tasks.find? (fun x => x.id == u.id)
          = some u) ∧
      (t.completed = u.completed →
        (m.update c (.TaskUpdated u)).1.tasks = m.tasks)) ∧
    (m.tasks.find? (fun x => x.id == u.id) = none →
      (m.update c (.TaskUpdated u)).1.tasks = m.tasks) ∧
    (∀ t, m.tasks.find? (fun x => x.id == st.id) = some t →
      (m.update c (.TaskSaved st)).1.tasks.find? (fun x => x.id == st.id)
        = some st) := by
  refine ⟨?_, ?_, ?_⟩
  · intro t ht
    constructor
    · intro hne
      have hb : (t.completed != u.completed) = true := by
        simpa using hne
      have h1 : (m.update c (.TaskUpdated u)).1.tasks =
          updateFirst (fun x => x.id == u.id) (fun _ => u) m.tasks := by
        simp [Model.update, ht, hb]
      rw [h1]
      have := find?_updateFirst (fun x => x.id == u.id)
        (fun _ : Task => u) (fun a _ => by simp) m.tasks t ht
      exact this
    · intro heq
      have hb : (t.completed != u.completed) = false := by
        simpa using heq
      simp [Model.update, ht, hb]
  · intro ht
    simp [Model.update, ht]
  · intro t ht
    have h1 : (m.update c (.TaskSaved st)).1.tasks =
        updateFirst (fun x => x.id == st.id) (fun _ => st) m.tasks := by
      simp [Model.update]
    rw [h1]
    exact find?_updateFirst (fun x => x.id == st.id)
      (fun _ : Task => st) (fun a _ => by simp) m.tasks t ht

/-- Claim C1 witness: a toggle-update response with a different
`completed` is merged; one with the same `completed` (`uC1`) leaves the
task list unchanged; a save response is merged unconditionally. -/
theorem C1_stale_suppression_witness :
    (mC1.update true (.TaskUpdated uC1)).1.tasks = mC1.tasks ∧
    ((mW2.update true (.TaskUpdated uW1)).1.tasks.find? (fun x => x.id == 5)
      = some uW1) ∧
    (mC1.update true (.TaskSaved uC1)).1.tasks.find? (fun x => x.id == 1) = some uC1 :=
  ⟨((C1_stale_suppression true mC1 uC1 uC1).1 tC1 rfl).2 rfl,
   ((C1_stale_suppression true mW2 uW1 uC1).1 tW2 rfl).1 (by decide),
   (C1_stale_suppression true mC1 uC1 uC1).2.2 tC1 rfl⟩

/-- Claim C6: partial-update semantics end to end. For every stored task
and every update request, the backend handler leaves each `none` field
unchanged and applies exactly the `some` fields, both in the returned
task and in the store; and the toggle dispatch issues a request with
title and description absent and only `completed` set, so a toggle never
alters title or description remotely. -/
theorem C6_partial_update (s : List (Nat × Task)) (id : Nat) (task : Task)
    (req : UpdateTaskRequest) (h : lookupTask s id = some task) :
    ∃ s2 t2, update_task_handler s id req = .ok (s2, t2) ∧
      t2.id = task.id ∧
      t2.title = req.title.getD task.title ∧
      t2.description = req.description.getD task.description ∧
      t2.completed = req.completed.getD task.completed ∧
      lookupTask s2 id = some t2 ∧
      remoteCallOf (.toggleSync id (!task.completed) task.completed) =
        .update id none none (some (!task.completed)) := by
  unfold lookupTask at h
  cases hf : s.find? (fun e => e.1 == id) with
  | none => rw [hf] at h; cases h
  | some e =>
      rw [hf] at h
      obtain ⟨k, v⟩ := e
      have hv : v = task := by
        simpa using h
      subst hv
      obtain ⟨rt, rd, rc⟩ := req
      cases rt <;> cases rd <;> cases rc <;>
        refine ⟨_, _, by simp only [update_task_handler, hf]; exact rfl,
            ?_, ?_, ?_, ?_, ?_, rfl⟩ <;>
          first
            | rfl
            | exact lookupTask_bsSet_self _ _ _

/-- Claim C6 witness: toggling task 7 (stored as not completed, title
`"x"`, description `"y"`) through the backend flips only `completed`. -/
theorem C6_partial_update_witness :
    ∃ s2 t2,
      update_task_handler [(7, { id := 7, title := "x", description := "y", completed := false })]
          7 { title := none, description := none, completed := some true } = .ok (s2, t2) ∧
      t2.id = 7 ∧
      t2.title = "x" ∧
      t2.description = "y" ∧
      t2.completed = true ∧
      lookupTask s2 7 = some t2 ∧
      remoteCallOf (.toggleSync 7 true false) = .update 7 none none (some true) :=
  C6_partial_update [(7, { id := 7, title := "x", description := "y", completed := false })]
    7 { id := 7, title := "x", description := "y", completed := false }
    { title := none, description := none, completed := some true } rfl

/-- Claim C7: create with a title whose trimmed form is empty is a
complete no-op (identical model, no remote call); with a non-empty
trimmed title both input buffers are cleared immediately, the Store is
untouched, exactly one remote create is issued, and on success exactly
one new entry holding the returned task (whose title is the requested
title) is appended. -/
theorem C7_create_guard (c c2 : Bool) (m : Model) (s : List (Nat × Task)) (fid : Nat) :
    (strTrim m.new_task_title = "" → m.update c .CreateTask = (m, [])) ∧
    (strTrim m.new_task_title ≠ "" →
      ((m.update c .CreateTask).1.new_task_title = "" ∧
       (m.update c .CreateTask).1.new_task_description = "" ∧
       (m.update c .CreateTask).1.tasks = m.tasks ∧
       (m.update c .CreateTask).2 =
         [.createT m.new_task_title m.new_task_description] ∧
       (create_task_handler s fid
          { title := m.new_task_title, description := m.new_task_description }).2.title
         = m.new_task_title ∧
       resolve (.createT m.new_task_title m.new_task_description)
          (.ok (.task (create_task_handler s fid
            { title := m.new_task_title, description := m.new_task_description }).2))
         = .TaskCreated (create_task_handler s fid
            { title := m.new_task_title, description := m.new_task_description }).2 ∧
       ((m.update c .CreateTask).1.update c2
          (.TaskCreated (create_task_handler s fid
            { title := m.new_task_title, description := m.new_task_description }).2)).1.tasks
         = m.tasks ++ [(create_task_handler s fid
            { title := m.new_task_title, description := m.new_task_description }).2])) := by
  constructor
  · intro h
    simp [Model.update, h]
  · intro h
    refine ⟨?_, ?_, ?_, ?_, rfl, rfl, ?_⟩ <;> simp [Model.update, h]

/-- Claim C7 witness: `create` with title `"Buy milk"` and empty
description clears the buffers, issues one remote create and appends the
returned task; with the empty title of `mC1` it is a no-op. -/
theorem C7_create_guard_witness :
    (mC1.update true .CreateTask = (mC1, [])) ∧
    ((mW7.update true .CreateTask).1.new_task_title = "" ∧
     (mW7.update true .CreateTask).1.new_task_description = "" ∧
     (mW7.update true .CreateTask).1.tasks = mW7.tasks ∧
     (mW7.update true .CreateTask).2 = [.createT "Buy milk" ""] ∧
     (Task.new 9 "Buy milk" "").title = "Buy milk" ∧
     resolve (.createT "Buy milk" "") (.ok (.task (Task.new 9 "Buy milk" ""))) =
       .TaskCreated (Task.new 9 "Buy milk" "") ∧
     ((mW7.update true .CreateTask).1.update true
        (.TaskCreated (Task.new 9 "Buy milk" ""))).1.tasks
       = mW7.tasks ++ [Task.new 9 "Buy milk" ""]) :=
  ⟨(C7_create_guard true true mC1 [] 9).1 (by decide),
   (C7_create_guard true true mW7 [] 9).2 (by decide)⟩

/-- Claim C9: reconciling a failed toggle via `RevertTaskToggle id prior`
issues no remote call, clears the in-flight flag for `id` while leaving
every other flag alone, preserves the task-list length and order, leaves
every entry either unchanged or — only for an entry whose identifier is
`id` — changed solely in its `completed` field (set to `prior`), restores
the found task's `completed` to `prior`, and changes no other component
of the model. -/
theorem C9_revert_frame (c : Bool) (m : Model) (id : Nat) (prior : Bool) :
    (m.update c (.RevertTaskToggle id prior)).2 = [] ∧
    (m.update c (.RevertTaskToggle id prior)).1.is_in_flight id = false ∧
    (∀ j, j ≠ id →
      (m.update c (.RevertTaskToggle id prior)).1.is_in_flight j = m.is_in_flight j) ∧
    (m.update c (.RevertTaskToggle id prior)).1.tasks.length = m.tasks.length ∧
    (∀ i, (m.update c (.RevertTaskToggle id prior)).1.tasks.get? i = m.tasks.get? i ∨
      ∃ t, m.tasks.get? i = some t ∧ t.id = id ∧
        (m.update c (.RevertTaskToggle id prior)).1.tasks.get? i
          = some { t with completed := prior }) ∧
    (∀ t, m.tasks.find? (fun x => x.id == id) = some t →
      (m.update c (.RevertTaskToggle id prior)).1.tasks.find? (fun x => x.id == id)
        = some { t with completed := prior }) ∧
    (m.update c (.RevertTaskToggle id prior)).1.editing_task = m.editing_task ∧
    (m.update c (.RevertTaskToggle id prior)).1.edit_title = m.edit_title ∧
    (m.update c (.RevertTaskToggle id prior)).1.edit_description = m.edit_description ∧
    (m.update c (.RevertTaskToggle id prior)).1.new_task_title = m.new_task_title ∧
    (m.update c (.RevertTaskToggle id prior)).1.new_task_description
      = m.new_task_description ∧
    (m.update c (.RevertTaskToggle id prior)).1.loading = m.loading ∧
    (m.update c (.RevertTaskToggle id prior)).1.show_completed = m.show_completed ∧
    (m.update c (.RevertTaskToggle id prior)).1.current_page = m.current_page := by
  have htasks : (m.update c (.RevertTaskToggle id prior)).1.tasks =
      updateFirst (fun x => x.id == id)
        (fun x => { x with completed := prior }) m.tasks := rfl
  have hls : (m.update c (.RevertTaskToggle id prior)).1.task_loading_states =
      lsRemove id m.task_loading_states := rfl
  refine ⟨rfl, ?_, ?_, ?_, ?_, ?_, rfl, rfl, rfl, rfl, rfl, rfl, rfl, rfl⟩
  · rw [Model.is_in_flight, hls, ← Bool.not_eq_true, contains_iff_mem, mem_lsRemove]
    rintro ⟨-, hne⟩
    exact hne rfl
  · intro j hj
    rw [Model.is_in_flight, Model.is_in_flight, hls]
    rw [Bool.eq_iff_iff, contains_iff_mem, contains_iff_mem, mem_lsRemove]
    exact ⟨fun h => h.1, fun h => ⟨h, hj⟩⟩
  · rw [htasks]
    exact updateFirst_length _ _ _
  · intro i
    rw [htasks]
    rcases updateFirst_get? (fun x => x.id == id)
        (fun x : Task => { x with completed := prior }) m.tasks i with h | ⟨t, h1, h2, h3⟩
    · exact Or.inl h
    · exact Or.inr ⟨t, h1, by simpa using h2, h3⟩
  · intro t ht
    rw [htasks]
    exact find?_updateFirst (fun x => x.id == id)
      (fun x : Task => { x with completed := prior }) (fun a ha => ha) m.tasks t ht

/-- Claim C9 witness: reverting task 3 to `completed = false` restores
that task, clears flag 3, and leaves the unrelated in-flight flag 9
unchanged. -/
theorem C9_revert_frame_witness :
    (mW9.update true (.RevertTaskToggle 3 false)).1.tasks.find? (fun x => x.id == 3)
      = some { id := 3, title := "t", description := "d", completed := false } ∧
    (mW9.update true (.RevertTaskToggle 3 false)).1.is_in_flight 3 = false ∧
    (mW9.update true (.RevertTaskToggle 3 false)).1.is_in_flight 9 = mW9.is_in_flight 9 :=
  ⟨(C9_revert_frame true mW9 3 false).2.2.2.2.2.1 tW9 rfl,
   (C9_revert_frame true mW9 3 false).2.1,
   (C9_revert_frame true mW9 3 false).2.2.1 9 (by decide)⟩

end FB
